import Mathlib

/-!
Verification development for a reconciliation daemon that keeps Cloudflare
tunnel ingress and DNS records synchronized with the live routing state of a
Traefik reverse proxy.  The definitions below are a shallow embedding of the
program (`main.py`): pure computations become Lean functions, Python dicts
become structures, Python string truthiness becomes inequality with the empty
value, and the main `run` loop becomes an explicit state-passing step
function over an environment describing the external world for one pass.
-/

namespace TraefikCF

/-! ## Helpers: `extract_host` (main.py lines 23-33)

Python: strip a leading `scheme://`, then keep what precedes the first `/`,
then what precedes the first `:`.  `url.split('://', 1)[-1]` is the part
after the first occurrence of `://` (the whole string when absent). -/

/-- Part of the character list after the first occurrence of `://`,
or `none` when `://` does not occur. -/
def afterScheme : List Char → Option (List Char)
  | [] => none
  | c :: rest =>
    if [':', '/', '/'].isPrefixOf (c :: rest) then some ((c :: rest).drop 3)
    else afterScheme rest

/-- Function `extract_host`: hostname/IP from a URL, without scheme, path and port. -/
def extract_host (url : String) : String :=
  if url = "" then url
  else
    let s := url.data
    let s := match afterScheme s with
      | some t => t
      | none => s
    let s := s.takeWhile (fun c => c ≠ '/')
    let s := s.takeWhile (fun c => c ≠ ':')
    String.mk s

/-! ## Data model

A Traefik router as returned by `GET /api/http/routers`.  The `tls` object
may be absent in Python (`router.get('tls', {})`); absence is modelled as the
all-empty `Tls` value, which has exactly the same falsy behaviour. -/

structure Tls where
  certResolver : String := ""
  options : String := ""
  domains : List String := []
  deriving DecidableEq, Repr

structure Router where
  name : String := ""
  status : String := ""
  entryPoints : List String := []
  rule : String := ""
  tls : Tls := {}
  deriving DecidableEq, Repr

structure Account where
  id : String
  name : String
  deriving DecidableEq, Repr

structure Zone where
  id : String
  name : String
  account : Account
  deriving DecidableEq, Repr

/-- The zone-resolution result for one hostname
(`match_domains_with_zones`, main.py lines 401-407). -/
structure DomainMatch where
  zone_id : String
  account_id : String
  account_name : String
  root_domain : String
  deriving DecidableEq, Repr

/-- The configuration fields the reconciliation logic reads
(main.py `Config`, lines 56-66). -/
structure Config where
  cloudflare_tunnel_id : String
  traefik_entrypoints : List String
  traefik_service_endpoint : String
  skip_tls_routes : Bool := true
  poll_interval : Nat := 10
  deriving DecidableEq, Repr

/-! ## TraefikClient.get_routers (main.py lines 163-172)

A fetched router is kept iff `any(ep != "traefik" for ep in entrypoints)`. -/

def routerKept (r : Router) : Bool :=
  r.entryPoints.any (fun ep => ep != "traefik")

def get_routers (fetched : List Router) : List Router :=
  fetched.filter routerKept

/-! ## CloudflareSyncer predicates (main.py lines 257-269) -/

/-- Predicate `has_tls_enabled`: Python truthiness of
`tls.get('certResolver') and (tls.get('options') or tls.get('domains'))`. -/
def has_tls_enabled (r : Router) : Bool :=
  (r.tls.certResolver != "") && ((r.tls.options != "") || (r.tls.domains != []))

/-- Predicate `has_matching_entrypoint`: true when the configured allow-list is empty,
else true iff some router entrypoint is in the allow-list. -/
def has_matching_entrypoint (cfg : Config) (routerEps : List String) : Bool :=
  if cfg.traefik_entrypoints.isEmpty then true
  else routerEps.any (fun ep => cfg.traefik_entrypoints.contains ep)

/-! ## Rule parsing (main.py lines 603-614)

`re.findall(r'Host\(([^)]+)\)', rule)`: every non-overlapping occurrence of
the literal `Host(`, followed by a non-empty greedy run of non-`)`
characters, followed by `)`.  Each capture is split on `,`; each item is
stripped of surrounding whitespace and must match `re.match(r'`...`', item)`:
a leading backtick, a non-empty run of non-backtick characters, a closing
backtick (trailing characters are ignored, since `re.match` only anchors at
the start). -/

/-- Try to match `Host\(([^)]+)\)` at the head of the character list;
on success return the capture and the remainder after the closing `)`. -/
def matchHostAt (s : List Char) : Option (List Char × List Char) :=
  if ['H', 'o', 's', 't', '('].isPrefixOf s then
    let rest := s.drop 5
    let cap := rest.takeWhile (fun c => c ≠ ')')
    if cap.isEmpty then none
    else
      match rest.dropWhile (fun c => c ≠ ')') with
      | ')' :: tail => some (cap, tail)
      | _ => none
  else none

/-- Left-to-right non-overlapping scan, advancing one character on a failed
match, as `re.findall` does.  Each successful step consumes at least seven
characters and each failed step one, so `s.length` fuel always suffices. -/
def findHostCallsAux : Nat → List Char → List (List Char)
  | 0, _ => []
  | _, [] => []
  | Nat.succ n, c :: tail =>
    match matchHostAt (c :: tail) with
    | some (cap, rest) => cap :: findHostCallsAux n rest
    | none => findHostCallsAux n tail

def findHostCalls (s : List Char) : List (List Char) :=
  findHostCallsAux s.length s

/-- Python `str.strip()`: drop whitespace from both ends. -/
def pyStrip (s : List Char) : List Char :=
  ((s.dropWhile Char.isWhitespace).reverse.dropWhile Char.isWhitespace).reverse

/-- The backquote character (code point 96) that quotes hostnames in
Traefik rule strings. -/
def backquote : Char := Char.ofNat 96

/-- Python `re.match(r'`([^`]+)`', item)`: backtick, non-empty run of
non-backticks, backtick; return the capture. -/
def backtickArg (item : List Char) : Option (List Char) :=
  match item with
  | [] => none
  | c :: rest =>
    if c = backquote then
      let cap := rest.takeWhile (fun ch => ch ≠ backquote)
      if cap.isEmpty then none
      else
        match rest.dropWhile (fun ch => ch ≠ backquote) with
        | [] => none
        | c2 :: _ => if c2 = backquote then some cap else none
    else none

/-- All hostnames extracted from one router rule string
(main.py lines 605-614). -/
def ruleDomains (rule : String) : List String :=
  (((findHostCalls rule.data).map
      (fun call => ((call.splitOn ',').map pyStrip).filterMap backtickArg)).flatten).map
    (fun l => String.mk l)

/-! ## Hostname extraction in the main loop (main.py lines 581-628)

Per router: skip when `status != enabled`; the TLS-skip branch (lines
589-592) only logs — its body is `pass`, so the router is *not* skipped;
skip when no entrypoint matches; parse the rule; when at least one hostname
was parsed, add all of them to the accumulated set and, when the router's
entrypoints contain `local` or `office`, also to the local/office set.
Python sets are modelled as duplicate-free lists in insertion order. -/

def insertNew (l : List String) (d : String) : List String :=
  if d ∈ l then l else l ++ [d]

def extractStep (cfg : Config) (acc : List String × List String) (r : Router) :
    List String × List String :=
  if r.status ≠ "enabled" then acc
  else if !(has_matching_entrypoint cfg r.entryPoints) then acc
  else
    let ds := ruleDomains r.rule
    if ds.isEmpty then acc
    else
      let domains := ds.foldl insertNew acc.1
      let locals :=
        if r.entryPoints.contains "local" || r.entryPoints.contains "office" then
          ds.foldl insertNew acc.2
        else acc.2
      (domains, locals)

/-- Pair `(domains, local_domains)` accumulated over all routers of one pass. -/
def extractDomains (cfg : Config) (routers : List Router) :
    List String × List String :=
  routers.foldl (extractStep cfg) ([], [])

/-! ## Zone matching (main.py lines 382-413)

Candidates: for `i in range(len(parts)-1)`, `'.'.join(parts[i:])` — the
hostname's ancestor suffixes from most specific (the hostname itself) to
least specific (the last two labels).  `zone_map` is a dict comprehension,
so a later zone with the same name overwrites an earlier one. -/

/-- Python `domain.split('.')`: split on every occurrence of the single
character `.` (empty parts kept).  `List.splitOn` has exactly these
semantics for a one-character separator. -/
def pySplitDots (domain : String) : List String :=
  (domain.data.splitOn '.').map (fun l => String.mk l)

def possibleDomains (domain : String) : List String :=
  let parts := pySplitDots domain
  (List.range (parts.length - 1)).map
    (fun i => String.intercalate "." (parts.drop i))

/-- Lookup in the `zone_map` dict: last zone with the given name wins. -/
def zoneMapFind (zones : List Zone) (name : String) : Option Zone :=
  zones.foldl (fun acc z => if z.name = name then some z else acc) none

/-- Iterate the candidates in order and stop at the first one present in the
zone map. -/
def findFirstZone (zones : List Zone) : List String → Option (String × Zone)
  | [] => none
  | c :: rest =>
    match zoneMapFind zones c with
    | some z => some (c, z)
    | none => findFirstZone zones rest

/-- Zone resolution for a single hostname. -/
def matchZone (zones : List Zone) (domain : String) : Option DomainMatch :=
  (findFirstZone zones (possibleDomains domain)).map
    (fun p => ⟨p.2.id, p.2.account.id, p.2.account.name, p.1⟩)

/-- Function `match_domains_with_zones` as an association list in input order
(the Python dict is keyed by hostname; the input comes from a set, so there
are no duplicate keys). -/
def match_domains_with_zones (domains : List String) (zones : List Zone) :
    List (String × DomainMatch) :=
  domains.filterMap (fun d => (matchZone zones d).map (fun m => (d, m)))

/-! ## Tunnel ingress for one account (main.py lines 450-469) -/

inductive IngressRule where
  /-- Rule `{hostname, service, originRequest:{noTLSVerify, httpHostHeader,
  originServerName}}` -/
  | host (hostname service : String) (noTLSVerify : Bool)
      (httpHostHeader originServerName : String)
  /-- Rule `{"service": "http_status:404"}` -/
  | catchAll
  deriving DecidableEq, Repr

/-- The ingress list built for one account: one rule per non-local domain,
then the catch-all appended once. -/
def ingressFor (cfg : Config) (localDomains : List String)
    (accountDomains : List String) : List IngressRule :=
  (accountDomains.filter (fun d => decide (d ∉ localDomains))).map
      (fun d => IngressRule.host d cfg.traefik_service_endpoint true d d)
    ++ [IngressRule.catchAll]

/-! ## Desired DNS record and reconcile decision (main.py lines 486-542) -/

structure DesiredRecord where
  type : String
  content : String
  ttl : Nat
  proxied : Bool
  deriving DecidableEq, Repr

/-- Desired record for one hostname: local/office domains get
`A <local_endpoint>` unproxied, all others `CNAME <tunnel>.cfargotunnel.com`
proxied; `ttl=1` (the provider's "automatic" sentinel) in both write calls. -/
def desiredRecord (cfg : Config) (localDomains : List String)
    (domain : String) : DesiredRecord :=
  if domain ∈ localDomains then
    ⟨"A", extract_host cfg.traefik_service_endpoint, 1, false⟩
  else
    ⟨"CNAME", cfg.cloudflare_tunnel_id ++ ".cfargotunnel.com", 1, true⟩

/-- An existing provider record of the queried type and name.  `proxied` is
read with `getattr(rec, 'proxied', None)` and may be `None`. -/
structure ActualRecord where
  id : String
  content : String
  proxied : Option Bool
  deriving DecidableEq, Repr

inductive DnsAction where
  | create (d : DesiredRecord)
  | update (recId : String) (d : DesiredRecord)
  | noop
  deriving DecidableEq, Repr

/-- The decision taken for one hostname given the records returned by
`dns.records.list(zone_id, name, type)`: create when none exist; else look
at the first record and update iff `(content, proxied)` differs. -/
def reconcileDecision (existing : List ActualRecord) (d : DesiredRecord) :
    DnsAction :=
  match existing with
  | [] => .create d
  | r :: _ =>
    if (r.content ≠ d.content) || (r.proxied ≠ some d.proxied) then
      .update r.id d
    else .noop

/-! ## `retry_context` semantics (main.py lines 202-214)

The source wraps a `for`-loop around `yield` inside an
`@contextmanager` generator.  Under Python's contextlib protocol the body of
the `with` block runs exactly once:

* `__enter__` advances the generator to the first `yield` (loop index 0).
* If the body finishes normally, `__exit__` calls `next(gen)`; the generator
  `break`s out of the loop and ends, raising `StopIteration` — success.
* If the body raises `e`, `__exit__` calls `gen.throw(e)`, delivering `e` at
  the `yield`.  The generator's `except` catches it; on the last loop index
  it re-raises `e`; otherwise it sleeps `2**i` seconds, loops, and `yield`s
  again — whereupon contextlib raises
  `RuntimeError("generator didn't stop after throw()")`.

So the body is never retried: a first failure costs one `2**0` sleep and
surfaces as `RuntimeError`, not as the original exception. -/

inductive PyOutcome where
  | ok
  /-- The body's own exception propagates to the caller. -/
  | raisedOriginal
  /-- contextlib's `RuntimeError("generator didn't stop after throw()")`. -/
  | raisedRuntimeError
  deriving DecidableEq, Repr

inductive GenReaction where
  | reraises
  | sleepsAndYields (wait : Nat)
  deriving DecidableEq, Repr

/-- Reaction of the suspended generator when the body's exception is thrown
in at the `yield` with loop index `i`: re-raise on the last index, else
sleep `2^i` and suspend at `yield` again. -/
def genThrow (maxRetries i : Nat) : GenReaction :=
  if i = maxRetries - 1 then .reraises else .sleepsAndYields (2 ^ i)

/-- Observable behaviour of `with retry_context(maxRetries): body` for a
body that either succeeds or raises: `(body attempts, sleeps, outcome)`. -/
def retry_context_run (maxRetries : Nat) (bodyFails : Bool) :
    Nat × List Nat × PyOutcome :=
  if bodyFails then
    match genThrow maxRetries 0 with
    | .reraises => (1, [], .raisedOriginal)
    | .sleepsAndYields w => (1, [w], .raisedRuntimeError)
  else (1, [], .ok)

/-- Modelled from the spec: the behaviour §4.6 ascribes to the retry wrapper
— the body is attempted up to `maxRetries` times, with a `2^attempt` second
sleep between consecutive attempts, and the original exception is re-raised
exactly when all attempts fail.  `failures` is the number of initial
failures of the body. -/
def retrySpecRun (maxRetries : Nat) (failures : Nat) :
    Nat × List Nat × PyOutcome :=
  let attempts := min (failures + 1) maxRetries
  ( attempts,
    (List.range (attempts - 1)).map (fun i => 2 ^ i),
    if maxRetries ≤ failures then .raisedOriginal else .ok )

/-! ## `create_tunnel_config` write accounting (main.py lines 415-547)

Domains are grouped by owning account in order of first appearance
(`account_domains` dict).  For each account the whole body — tunnel config
get, tunnel config update, DNS sync of each domain — sits inside one
`with retry_context():`; any exception escaping the body surfaces as the
contextlib `RuntimeError` (see above) and is caught by the per-account
`except` (line 546), so a failing account is skipped for the pass and the
remaining accounts still run.  DNS write failures are caught per-domain
(line 543).  We count provider *write* calls attempted (tunnel config
update, DNS create, DNS update); reads are not writes. -/

def accountIds (ms : List (String × DomainMatch)) : List String :=
  ms.foldl
    (fun acc p => if p.2.account_id ∈ acc then acc else acc ++ [p.2.account_id]) []

def accountMatches (ms : List (String × DomainMatch)) (accId : String) :
    List (String × DomainMatch) :=
  ms.filter (fun p => decide (p.2.account_id = accId))

/-- Writes attempted while processing one account, given whether the tunnel
config read and the tunnel config update succeed and the DNS records each
hostname currently has.  A failed tunnel read aborts the account before any
write; a failed tunnel update (attempted once — the broken retry wrapper
never re-runs the body) aborts it before the DNS loop; otherwise one DNS
write is attempted per hostname whose reconcile decision is not a no-op. -/
def accountWrites (cfg : Config) (localDomains : List String)
    (tunnelGetOk tunnelUpdateOk : Bool)
    (dnsExisting : String → List ActualRecord)
    (accMatches : List (String × DomainMatch)) : Nat :=
  if !tunnelGetOk then 0
  else if !tunnelUpdateOk then 1
  else 1 + (accMatches.filter (fun p =>
      decide (reconcileDecision (dnsExisting p.1)
        (desiredRecord cfg localDomains p.1) ≠ DnsAction.noop))).length

/-! ## The reconciliation loop, one pass (main.py `run`, lines 549-662) -/

/-- Loop state surviving across passes: the raw router cache and the
consecutive-failure counter. -/
structure LoopState where
  cache : List Router
  failures : Nat
  deriving DecidableEq, Repr

/-- The external world during one pass: the routers the Traefik API returns
(before the `get_routers` filter), whether the zone fetch succeeds and what
it yields, whether the tunnel config read/update succeed, and the DNS
records the provider holds per hostname. -/
structure PassEnv where
  fetched : List Router
  zonesOk : Bool := true
  zones : List Zone := []
  tunnelGetOk : Bool := true
  tunnelUpdateOk : Bool := true
  dnsExisting : String → List ActualRecord := fun _ => []

inductive PassResult where
  /-- Empty router list: backoff sleep of the given length (line 565). -/
  | backoffEmpty (wait : Nat)
  /-- Routers equal the cached list: plain poll-interval sleep (line 574). -/
  | unchanged (sleep : Nat)
  /-- No hostnames extracted (line 630). -/
  | noDomains (sleep : Nat)
  /-- Zone fetch raised; caught by the loop-level handler (line 654). -/
  | errorBackoff (wait : Nat)
  /-- Zone list empty (line 640). -/
  | noZones (sleep : Nat)
  /-- No hostname matched a zone (line 646). -/
  | noMatches (sleep : Nat)
  /-- Reached `create_tunnel_config`; records the writes attempted. -/
  | synced (writes : Nat)
  deriving DecidableEq, Repr

/-- One iteration of the `while True` loop.  Note the order of effects: the
router cache is overwritten (line 578) *before* any provider write is
attempted, and `create_tunnel_config` swallows every failure internally, so
a pass that reaches it always ends with `cache = get_routers fetched`. -/
def runPass (cfg : Config) (st : LoopState) (env : PassEnv) :
    LoopState × PassResult :=
  let routers := get_routers env.fetched
  if routers.isEmpty then
    let f := st.failures + 1
    (⟨st.cache, f⟩, .backoffEmpty (min 20 (cfg.poll_interval * 2 ^ f)))
  else
    -- consecutive_failures = 0 (line 570)
    if routers = st.cache then
      (⟨st.cache, 0⟩, .unchanged cfg.poll_interval)
    else
      let st1 : LoopState := ⟨routers, 0⟩
      let ex := extractDomains cfg routers
      if ex.1.isEmpty then (st1, .noDomains cfg.poll_interval)
      else if !env.zonesOk then
        -- get_zones re-raises; the loop-level except increments the counter
        (⟨routers, 1⟩, .errorBackoff (min 20 (cfg.poll_interval * 2 ^ 1)))
      else if env.zones.isEmpty then (st1, .noZones cfg.poll_interval)
      else
        let ms := match_domains_with_zones ex.1 env.zones
        if ms.isEmpty then (st1, .noMatches cfg.poll_interval)
        else
          let writes := (accountIds ms).foldl
            (fun n a => n + accountWrites cfg ex.2 env.tunnelGetOk
              env.tunnelUpdateOk env.dnsExisting (accountMatches ms a)) 0
          (st1, .synced writes)

/-! ## Concrete fixtures used in examples, counterexamples and witnesses -/

def cfg0 : Config := ⟨"T1", ["web"], "http://10.0.0.1:8080", true, 10⟩

def r1 : Router := ⟨"websvc", "enabled", ["web"], "Host(`a.example.com`)", {}⟩

/-- A router with an empty entrypoint list, as the Traefik API could return
for a router with no entrypoint configured. -/
def rEmptyEp : Router := ⟨"dashboard", "enabled", [], "Host(`d.example.com`)", {}⟩

/-- A TLS-enabled router (non-empty certResolver and options). -/
def rTls : Router :=
  ⟨"tlssvc", "enabled", ["web"], "Host(`t.example.com`)",
    ⟨"letsencrypt", "default", []⟩⟩

def z1 : Zone := ⟨"Z1", "example.com", ⟨"A1", "acc"⟩⟩

def zSub : Zone := ⟨"Z2", "sub.example.com", ⟨"A1", "acc"⟩⟩

/-- A pass in which everything works except the tunnel configuration update,
which fails on every attempt. -/
def env1 : PassEnv := { fetched := [r1], zones := [z1], tunnelUpdateOk := false }

/-- The property C6 ascribes to the route filter: the router's entrypoint
set is exactly `{"traefik"}`. -/
def entrySetExactlyTraefik (r : Router) : Prop :=
  ∀ ep : String, ep ∈ r.entryPoints ↔ ep = "traefik"

end TraefikCF

namespace TraefikCF

/-! ## Theorems -/

/-- C2 (code evaluated at the failing input): `retry_context` never retries
the body.  Under Python's contextlib protocol the body of
`with retry_context(): body` runs exactly once; when it fails, the generator
sleeps `2^0 = 1` second and then `yield`s again, whereupon contextlib raises
`RuntimeError("generator didn't stop after throw()")` — the body is not
re-attempted and the original exception is not the one re-raised.  The spec
model `retrySpecRun` (3 attempts, sleeps `[1, 2]`, original exception
re-raised on final failure) disagrees with the code already on a body that
fails once. -/
theorem retry_context_single_attempt :
    retry_context_run 3 true = (1, [1], .raisedRuntimeError) ∧
    retry_context_run 3 false = (1, [], .ok) ∧
    retrySpecRun 3 3 = (3, [1, 2], .raisedOriginal) ∧
    retry_context_run 3 true ≠ retrySpecRun 3 3 := by
  decide

/-- C10: after an empty (or failed, which `get_routers` turns into empty)
route fetch, the loop sleeps `min 20 (poll_interval * 2 ^ failures)` seconds
with `failures` the just-incremented consecutive-failure count; this wait
never exceeds 20 seconds, and whenever the configured poll interval is at
least 21 seconds (it may be as large as 3600) the failure backoff is
strictly shorter than the normal polling sleep. -/
theorem failure_backoff_capped (cfg : Config) (st : LoopState) (env : PassEnv)
    (h : get_routers env.fetched = []) :
    (runPass cfg st env).2 =
      .backoffEmpty (min 20 (cfg.poll_interval * 2 ^ (st.failures + 1))) ∧
    (∀ p f : Nat, min 20 (p * 2 ^ f) ≤ 20) ∧
    (∀ p f : Nat, 21 ≤ p → min 20 (p * 2 ^ f) < p) := by
  refine ⟨?_, fun p f => Nat.min_le_left _ _,
    fun p f hp => lt_of_le_of_lt (Nat.min_le_left _ _) (by omega)⟩
  unfold runPass
  rw [h]
  simp

/-- Witness for `failure_backoff_capped` at a concrete input: a pass that
fetches no routers with `poll_interval = 10` and one prior failure sleeps
`min 20 40 = 20` seconds. -/
theorem failure_backoff_capped_witness :
    (runPass cfg0 ⟨[], 1⟩ { fetched := [] }).2 = .backoffEmpty 20 :=
  (failure_backoff_capped cfg0 ⟨[], 1⟩ { fetched := [] } (by decide)).1

/-- C6 counterexample: the claim "a router is excluded if and only if its
entrypoint set is exactly `{"traefik"}`" fails at a router whose entrypoint
list is empty: `get_routers` drops it (Python's
`any(ep != "traefik" for ep in [])` is false), yet its entrypoint set is not
`{"traefik"}`. -/
theorem traefik_filter_counterexample :
    get_routers [rEmptyEp] = [] ∧ ¬ entrySetExactlyTraefik rEmptyEp := by
  refine ⟨by decide, fun h => ?_⟩
  have := (h "traefik").mpr rfl
  simp [rEmptyEp] at this

/-- C6 amended: a fetched router is returned iff at least one of its
entrypoints differs from `"traefik"`; equivalently, it is excluded iff every
entrypoint equals `"traefik"`, which includes the empty entrypoint list. -/
theorem traefik_filter_mem_iff (r : Router) (rs : List Router) :
    r ∈ get_routers rs ↔ r ∈ rs ∧ ∃ ep ∈ r.entryPoints, ep ≠ "traefik" := by
  simp [get_routers, routerKept, List.mem_filter, List.any_eq_true,
    bne_iff_ne]

/-- C4: the ingress list planned for an account always has the catch-all
`{service: http_status:404}` rule as its last element, contains it exactly
once, and collapses to exactly `[catchAll]` when every domain of the
account is local (in particular for zero planned hostnames). -/
theorem ingress_catchall_invariant (cfg : Config)
    (locals domains : List String) :
    (ingressFor cfg locals domains).getLast? = some .catchAll ∧
    (ingressFor cfg locals domains).count .catchAll = 1 ∧
    ((∀ d ∈ domains, d ∈ locals) → ingressFor cfg locals domains = [.catchAll]) := by
  refine ⟨List.getLast?_concat _, ?_, fun h => ?_⟩
  · unfold ingressFor
    rw [List.count_append]
    have h0 : ((domains.filter (fun d => decide (d ∉ locals))).map
        (fun d => IngressRule.host d cfg.traefik_service_endpoint true d d)).count
          IngressRule.catchAll = 0 := by
      refine List.count_eq_zero.mpr ?_
      simp
    rw [h0]
    rfl
  · unfold ingressFor
    have hnil : domains.filter (fun d => decide (d ∉ locals)) = [] := by
      refine List.filter_eq_nil_iff.mpr ?_
      intro a ha
      simp [h a ha]
    rw [hnil]
    rfl

/-- Witness for `ingress_catchall_invariant`: one all-local account yields
the one-element ingress list. -/
theorem ingress_catchall_invariant_witness :
    ingressFor cfg0 ["a.example.com"] ["a.example.com"] = [.catchAll] :=
  (ingress_catchall_invariant cfg0 ["a.example.com"] ["a.example.com"]).2.2
    (by decide)

/-- C3: a local/office hostname never appears as the hostname of any planned
ingress rule and its desired DNS record is an unproxied `A` record pointing
at the host extracted from the service endpoint; a public hostname's desired
record is a proxied `CNAME` to `<tunnelId>.cfargotunnel.com`. -/
theorem local_public_classification (cfg : Config)
    (locals domains : List String) (d : String) :
    (d ∈ locals →
      (∀ hn s b hh o, IngressRule.host hn s b hh o ∈ ingressFor cfg locals domains →
        hn ≠ d) ∧
      desiredRecord cfg locals d =
        ⟨"A", extract_host cfg.traefik_service_endpoint, 1, false⟩) ∧
    (d ∉ locals →
      desiredRecord cfg locals d =
        ⟨"CNAME", cfg.cloudflare_tunnel_id ++ ".cfargotunnel.com", 1, true⟩) := by
  constructor
  · intro hd
    constructor
    · intro hn s b hh o hmem heq
      subst heq
      unfold ingressFor at hmem
      rcases List.mem_append.mp hmem with hm | hm
      · obtain ⟨x, hx, hfx⟩ := List.mem_map.mp hm
        obtain ⟨hx1, hx2⟩ := List.mem_filter.mp hx
        injection hfx with e1 e2 e3 e4 e5
        subst e1
        exact (of_decide_eq_true hx2) hd
      · simp at hm
    · unfold desiredRecord
      rw [if_pos hd]
  · intro hd
    unfold desiredRecord
    rw [if_neg hd]

/-- Witness for `local_public_classification`: concrete desired records for
one local and one public hostname under `cfg0`. -/
theorem local_public_classification_witness :
    desiredRecord cfg0 ["l.example.com"] "l.example.com" =
      ⟨"A", extract_host cfg0.traefik_service_endpoint, 1, false⟩ ∧
    desiredRecord cfg0 ["l.example.com"] "a.example.com" =
      ⟨"CNAME", cfg0.cloudflare_tunnel_id ++ ".cfargotunnel.com", 1, true⟩ :=
  ⟨((local_public_classification cfg0 ["l.example.com"] [] "l.example.com").1
      (by decide)).2,
   (local_public_classification cfg0 ["l.example.com"] [] "a.example.com").2
      (by decide)⟩

/-- C8: the DNS reconcile decision creates when no record of the desired
type and name exists, updates the first record when its `(content, proxied)`
pair differs, and — the idempotence property — once a create or update has
produced the one record whose content and proxied flag equal the desired
values, running the decision again yields the no-op branch, so no further
create or update call is issued. -/
theorem dns_reconcile_idempotent (d : DesiredRecord) (rid : String) :
    reconcileDecision [] d = .create d ∧
    (∀ (r : ActualRecord) (rest : List ActualRecord),
      reconcileDecision (r :: rest) d ≠ .noop →
      reconcileDecision (r :: rest) d = .update r.id d) ∧
    reconcileDecision [⟨rid, d.content, some d.proxied⟩] d = .noop := by
  refine ⟨rfl, ?_, by simp [reconcileDecision]⟩
  intro r rest hne
  by_cases h1 : r.content = d.content
  · by_cases h2 : r.proxied = some d.proxied
    · exact absurd (by simp [reconcileDecision, h1, h2]) hne
    · simp [reconcileDecision, h1, h2]
  · simp [reconcileDecision, h1]

/-- Witness for `dns_reconcile_idempotent`: a stale record is updated; the
record produced by that update is then left alone. -/
theorem dns_reconcile_idempotent_witness :
    reconcileDecision [⟨"R1", "old.example.com", some false⟩]
        ⟨"CNAME", "T1.cfargotunnel.com", 1, true⟩ =
      .update "R1" ⟨"CNAME", "T1.cfargotunnel.com", 1, true⟩ ∧
    reconcileDecision [⟨"R1", "T1.cfargotunnel.com", some true⟩]
        ⟨"CNAME", "T1.cfargotunnel.com", 1, true⟩ = .noop :=
  ⟨(dns_reconcile_idempotent ⟨"CNAME", "T1.cfargotunnel.com", 1, true⟩ "R1").2.1
      ⟨"R1", "old.example.com", some false⟩ [] (by decide),
   (dns_reconcile_idempotent ⟨"CNAME", "T1.cfargotunnel.com", 1, true⟩ "R1").2.2⟩

/-- The `zone_map` dict lookup finds nothing iff no zone bears the name. -/
theorem zoneMapFind_eq_none_iff (zones : List Zone) (c : String) :
    zoneMapFind zones c = none ↔ ∀ z ∈ zones, z.name ≠ c := by
  have aux : ∀ (zs : List Zone) (acc : Option Zone),
      zs.foldl (fun a z => if z.name = c then some z else a) acc = none ↔
      acc = none ∧ ∀ z ∈ zs, z.name ≠ c := by
    intro zs
    induction zs with
    | nil => intro acc; simp
    | cons z zs ih =>
      intro acc
      rw [List.foldl_cons, ih]
      by_cases hz : z.name = c
      · simp [hz]
      · simp [hz]
  rw [zoneMapFind, aux]
  simp

/-- The candidate scan returns (the name of) the first candidate that is the
name of some zone. -/
theorem findFirstZone_map_fst (zones : List Zone) (cs : List String) :
    (findFirstZone zones cs).map Prod.fst =
      cs.find? (fun c => zones.any (fun z => z.name == c)) := by
  induction cs with
  | nil => rfl
  | cons c rest ih =>
    rw [List.find?_cons]
    cases hb : zones.any (fun z => z.name == c) with
    | true =>
      have hex : ∃ z ∈ zones, z.name = c := by
        rw [List.any_eq_true] at hb
        obtain ⟨z, hz, he⟩ := hb
        exact ⟨z, hz, beq_iff_eq.mp he⟩
      have hz : zoneMapFind zones c ≠ none := by
        intro h
        obtain ⟨z', hz', he'⟩ := hex
        exact (zoneMapFind_eq_none_iff zones c).mp h z' hz' he'
      obtain ⟨z, hzz⟩ := Option.ne_none_iff_exists'.mp hz
      simp only [findFirstZone, hzz]
      simp [hb]
    | false =>
      have hz : zoneMapFind zones c = none := by
        rw [zoneMapFind_eq_none_iff]
        intro z hzmem heq
        rw [List.any_eq_false] at hb
        exact hb z hzmem (beq_iff_eq.mpr heq)
      simp only [findFirstZone, hz]
      simp [hb, ih]

/-- The matched root domain is exactly the first candidate suffix carried by
some zone. -/
theorem matchZone_map_root (zones : List Zone) (d : String) :
    (matchZone zones d).map DomainMatch.root_domain =
      (possibleDomains d).find? (fun c => zones.any (fun z => z.name == c)) := by
  rw [← findFirstZone_map_fst]
  unfold matchZone
  cases findFirstZone zones (possibleDomains d) with
  | none => rfl
  | some p => rfl

/-- C5: zone matching scans the hostname's ancestor suffixes from most to
least specific and returns the first one present among the zone names; on
the spec's own example `{example.com, sub.example.com}` with hostname
`a.sub.example.com`, the match is `sub.example.com`, and a hostname none of
whose candidate suffixes is a zone name yields no match. -/
theorem zone_matching_most_specific :
    (∀ (zones : List Zone) (d : String),
      (matchZone zones d).map DomainMatch.root_domain =
        (possibleDomains d).find? (fun c => zones.any (fun z => z.name == c))) ∧
    possibleDomains "a.sub.example.com" =
      ["a.sub.example.com", "sub.example.com", "example.com"] ∧
    (matchZone [z1, zSub] "a.sub.example.com").map DomainMatch.root_domain =
      some "sub.example.com" ∧
    (∀ (zones : List Zone) (d : String),
      (∀ c ∈ possibleDomains d, ∀ z ∈ zones, z.name ≠ c) →
      matchZone zones d = none) := by
  refine ⟨matchZone_map_root, by decide, by decide, ?_⟩
  intro zones d hno
  have hfind : (possibleDomains d).find?
      (fun c => zones.any (fun z => z.name == c)) = none := by
    rw [List.find?_eq_none]
    intro c hc
    rw [List.any_eq_true]
    rintro ⟨z, hz, he⟩
    exact hno c hc z hz (beq_iff_eq.mp he)
  have h2 := matchZone_map_root zones d
  rw [hfind] at h2
  cases ho : matchZone zones d with
  | none => rfl
  | some m => rw [ho] at h2; simp at h2

/-- Witness for `zone_matching_most_specific`: a hostname under a foreign
TLD matches no zone. -/
theorem zone_matching_most_specific_witness :
    matchZone [z1] "other.org" = none :=
  zone_matching_most_specific.2.2.2 [z1] "other.org" (by decide)

/-- Joining at least one more part onto an accumulator that contains a dot
keeps the dot. -/
theorem intercalate_go_dot (t : List String) (acc : String)
    (h : '.' ∈ acc.data) : '.' ∈ (String.intercalate.go acc "." t).data := by
  induction t generalizing acc with
  | nil => simpa [String.intercalate.go] using h
  | cons a as ih =>
    rw [String.intercalate.go]
    exact ih _ (by simp [h])

/-- Joining two or more parts with `.` yields a string containing a dot. -/
theorem intercalate_dot_of_two_le (l : List String) (h : 2 ≤ l.length) :
    '.' ∈ (String.intercalate "." l).data := by
  match l, h with
  | a :: b :: t, _ =>
    show '.' ∈ (String.intercalate.go a "." (b :: t)).data
    rw [String.intercalate.go]
    exact intercalate_go_dot t _ (by simp)

/-- Every candidate suffix is the dot-join of a suffix of the label list
with at least two labels. -/
theorem possibleDomains_mem (d c : String) (h : c ∈ possibleDomains d) :
    ∃ l, l <:+ pySplitDots d ∧ 2 ≤ l.length ∧
      c = String.intercalate "." l := by
  unfold possibleDomains at h
  obtain ⟨i, hi, he⟩ := List.mem_map.mp h
  rw [List.mem_range] at hi
  refine ⟨(pySplitDots d).drop i, List.drop_suffix i _, ?_, he.symm⟩
  rw [List.length_drop]
  omega

/-- The candidate returned by the scan is one of the scanned candidates. -/
theorem findFirstZone_some_fst_mem (zones : List Zone) (cs : List String)
    (p : String × Zone) (h : findFirstZone zones cs = some p) : p.1 ∈ cs := by
  induction cs with
  | nil => simp [findFirstZone] at h
  | cons c rest ih =>
    cases hz : zoneMapFind zones c with
    | some z =>
      simp only [findFirstZone, hz, Option.some.injEq] at h
      rw [← h]
      exact List.mem_cons_self c rest
    | none =>
      simp only [findFirstZone, hz] at h
      exact List.mem_cons_of_mem c (ih h)

/-- A successful zone match's root domain is a candidate suffix of the
hostname. -/
theorem matchZone_root_mem (zones : List Zone) (d : String) (m : DomainMatch)
    (h : matchZone zones d = some m) : m.root_domain ∈ possibleDomains d := by
  unfold matchZone at h
  cases hf : findFirstZone zones (possibleDomains d) with
  | none => rw [hf] at h; simp at h
  | some p =>
    rw [hf, Option.map_some'] at h
    obtain rfl := Option.some.inj h
    exact findFirstZone_some_fst_mem zones _ p hf

/-- C9: a hostname made of a single DNS label has an empty candidate list
and so never matches any zone; every candidate suffix is the dot-join of at
least two labels, hence contains a dot; consequently the matched root domain
always contains a dot and can never be the name of a zone whose name has no
dot (a single-label zone). -/
theorem single_label_no_match :
    (∀ (d : String) (zones : List Zone), (pySplitDots d).length ≤ 1 →
      matchZone zones d = none) ∧
    (∀ (d c : String), c ∈ possibleDomains d →
      ∃ l, l <:+ pySplitDots d ∧ 2 ≤ l.length ∧
        c = String.intercalate "." l) ∧
    (∀ (zones : List Zone) (d : String) (m : DomainMatch),
      matchZone zones d = some m → '.' ∈ m.root_domain.data) ∧
    (∀ (zones : List Zone) (d : String) (m : DomainMatch) (z : Zone),
      matchZone zones d = some m → '.' ∉ z.name.data →
      m.root_domain ≠ z.name) := by
  have h3 : ∀ (zones : List Zone) (d : String) (m : DomainMatch),
      matchZone zones d = some m → '.' ∈ m.root_domain.data := by
    intro zones d m hm
    obtain ⟨l, hsuf, hlen, heq⟩ :=
      possibleDomains_mem d _ (matchZone_root_mem zones d m hm)
    rw [heq]
    exact intercalate_dot_of_two_le l hlen
  refine ⟨?_, fun d c => possibleDomains_mem d c, h3, ?_⟩
  · intro d zones hlen
    have hz : possibleDomains d = [] := by
      unfold possibleDomains
      have h0 : (pySplitDots d).length - 1 = 0 := by omega
      simp [h0]
    unfold matchZone
    rw [hz]
    rfl
  · intro zones d m z hm hz heq
    exact hz (heq ▸ h3 zones d m hm)

/-- Witness for `single_label_no_match`: `localhost` matches nothing. -/
theorem single_label_no_match_witness :
    matchZone [z1] "localhost" = none :=
  single_label_no_match.1 "localhost" [z1] (by decide)

/-- Membership in the accumulator survives the set-insertion fold. -/
theorem mem_foldl_insertNew_left :
    ∀ (ds l : List String) (x : String), x ∈ l → x ∈ ds.foldl insertNew l := by
  intro ds
  induction ds with
  | nil => intro l x h; exact h
  | cons a as ih =>
    intro l x h
    rw [List.foldl_cons]
    apply ih
    unfold insertNew
    split
    · exact h
    · exact List.mem_append_left _ h

/-- Every inserted element is in the result of the set-insertion fold. -/
theorem mem_foldl_insertNew_right :
    ∀ (ds l : List String) (x : String), x ∈ ds → x ∈ ds.foldl insertNew l := by
  intro ds
  induction ds with
  | nil => intro l x h; simp at h
  | cons a as ih =>
    intro l x h
    rw [List.foldl_cons]
    rcases List.mem_cons.mp h with rfl | h2
    · apply mem_foldl_insertNew_left
      unfold insertNew
      split
      · assumption
      · exact List.mem_append_right _ (List.mem_singleton.mpr rfl)
    · exact ih (insertNew l a) x h2

/-- C7: a router is TLS-enabled exactly when its TLS config has a non-empty
certResolver and a non-empty options or domains entry; and with the
skip-TLS flag set, a TLS-enabled, enabled router with a matching entrypoint
still contributes every hostname of its rule to the extracted set — the
skip branch in the main loop is a logged no-op, so extraction does not
depend on the TLS config at all. -/
theorem tls_skip_not_enforced :
    (∀ r : Router, has_tls_enabled r = true ↔
      (r.tls.certResolver ≠ "" ∧
        (r.tls.options ≠ "" ∨ r.tls.domains ≠ []))) ∧
    (∀ (cfg : Config) (acc : List String × List String) (r : Router) (t : Tls),
      extractStep cfg acc { r with tls := t } = extractStep cfg acc r) ∧
    (∀ (cfg : Config) (acc : List String × List String) (r : Router),
      cfg.skip_tls_routes = true → has_tls_enabled r = true →
      r.status = "enabled" → has_matching_entrypoint cfg r.entryPoints = true →
      ∀ d ∈ ruleDomains r.rule, d ∈ (extractStep cfg acc r).1) := by
  refine ⟨?_, fun cfg acc r t => rfl, ?_⟩
  · intro r
    simp [has_tls_enabled]
  · intro cfg acc r _ _ hstat hep d hd
    unfold extractStep
    rw [if_neg (by simp [hstat]), if_neg (by simp [hep])]
    have hne : (ruleDomains r.rule).isEmpty = false := by
      cases hq : ruleDomains r.rule
      · rw [hq] at hd; simp at hd
      · rfl
    rw [if_neg (by simp [hne])]
    exact mem_foldl_insertNew_right _ _ _ hd

/-- Witness for `tls_skip_not_enforced`: the TLS-enabled router `rTls`
still contributes its hostname under the default skip-TLS configuration. -/
theorem tls_skip_not_enforced_witness :
    "t.example.com" ∈ (extractStep cfg0 ([], []) rTls).1 :=
  tls_skip_not_enforced.2.2 cfg0 ([], []) rTls (by decide) (by decide)
    (by decide) (by decide) "t.example.com" (by decide)

/-- C1 counterexample: in the first pass every write fails after all retry
attempts (`env1.tunnelUpdateOk = false`, one attempted write, the account is
skipped for the pass), yet the router cache was already overwritten with the
fetched list; the second pass fetches a route list equal to the previous
pass's raw set and therefore skips straight to sleeping with zero provider
calls — the failed write is *not* retried on that pass, contrary to the
claim. -/
theorem failed_write_not_retried_on_equal_routes :
    runPass cfg0 ⟨[], 0⟩ env1 = (⟨[r1], 0⟩, .synced 1) ∧
    runPass cfg0 ⟨[r1], 0⟩ env1 = (⟨[r1], 0⟩, .unchanged 10) :=
  ⟨by decide, by decide⟩

/-- C1 amended: after a pass in which a DNS or tunnel write fails after all
retries, the hostname/account is skipped for that pass only, and the failed
write is retried on a later pass only when that pass's fetched route list
differs from the cached one: the router cache is overwritten before any
write is attempted, so a pass whose (filtered) fetch equals the cache takes
the unchanged branch and performs no provider calls, while any pass that
passes the first two guards ends with the cache equal to its fetch,
whether or not its writes succeeded. -/
theorem cache_updated_before_writes (cfg : Config) (st : LoopState)
    (env : PassEnv) :
    (get_routers env.fetched ≠ [] → get_routers env.fetched = st.cache →
      runPass cfg st env = (⟨st.cache, 0⟩, .unchanged cfg.poll_interval)) ∧
    (get_routers env.fetched ≠ [] → get_routers env.fetched ≠ st.cache →
      (runPass cfg st env).1.cache = get_routers env.fetched) := by
  constructor
  · intro h1 h2
    have hb1 : st.cache.isEmpty = false := by
      rw [← h2]
      cases hg : get_routers env.fetched
      · exact absurd hg h1
      · rfl
    unfold runPass
    rw [h2]
    simp [hb1]
  · intro h1 h2
    have hb1 : (get_routers env.fetched).isEmpty = false := by
      cases hg : get_routers env.fetched
      · exact absurd hg h1
      · rfl
    unfold runPass
    simp only [hb1, Bool.false_eq_true, if_false, if_neg h2]
    repeat' split
    all_goals rfl

/-- Witness for `cache_updated_before_writes`: the second pass of the C1
scenario takes the unchanged branch. -/
theorem cache_updated_before_writes_witness :
    runPass cfg0 ⟨[r1], 0⟩ env1 = (⟨[r1], 0⟩, .unchanged 10) :=
  (cache_updated_before_writes cfg0 ⟨[r1], 0⟩ env1).1 (by decide) (by decide)

end TraefikCF
